import Mathlib

/-!
Verification of the dm-this utility scripts: a shallow embedding of the
PDF image extractor and indexer (`generate-image-index.py`), the visual
RAG indexer (`colqwen2.py`) and the LLM provider factory
(`llm_interface.py`), together with theorems settling the specification
claims about them.
-/

/-- Python `f"{n:04d}"` for a natural number: decimal digits left-padded
with zeros to a minimum width of 4. -/
def pad4 (n : Nat) : String :=
  let s := toString n
  if s.length < 4 then String.mk (List.replicate (4 - s.length) '0' ++ s.data) else s

/-- Python `f"{n:04d}"` for an arbitrary integer: the sign counts toward
the minimum field width of 4, zeros are inserted after the sign. -/
def pad4Int (n : Int) : String :=
  if n < 0 then
    let s := toString n.natAbs
    if s.length < 3 then "-" ++ String.mk (List.replicate (3 - s.length) '0' ++ s.data)
    else "-" ++ s
  else pad4 n.toNat

/-- One entry of `page.get_images(full=True)`: the cross-reference id of
the image object, its pixel dimensions (indices 2 and 3 of the tuple) and
the recovered raw bytes (the result of `_recoverpix`, which resolves soft
masks and colour spaces; for the claims we treat the recovered bytes as
part of the input datum). -/
structure PdfImageInfo where
  xref : Nat
  width : Nat
  height : Nat
  content : List Nat
deriving DecidableEq, Repr

/-- A PDF page, reduced to the list of embedded images it carries. -/
structure PdfPage where
  images : List PdfImageInfo
deriving DecidableEq, Repr

/-- A PDF document: its filename stem and its pages in order. -/
structure PdfFile where
  stem : String
  pages : List PdfPage
deriving DecidableEq, Repr

/-- The mutable state of `ModuleIndex` relevant to extraction:
`_image_hashes` (content hash mapped to the filename it was first saved
under) and the files written to `embedded-images/` (filename paired with
the image written there). Both start empty: `__init__` sets
`_image_hashes = {}` and `_process_pdfs` cleans the directory first. -/
structure ExtractState where
  imageHashes : List (String × String)
  savedFiles : List (String × PdfImageInfo)
deriving DecidableEq, Repr

/-- The body of the `for img_index, img_info in enumerate(image_list)`
loop of `ModuleIndex._extract_embedded_images_from_page`: skip an xref
already in `xreflist`, skip images with width or height below 50, skip
images whose content hash is already recorded, otherwise save the image
as `{base}-{page+1:04d}-{index+1:04d}.png` and record its hash. The
`hash` parameter stands for `hashlib.sha256(...).hexdigest()`. -/
def processImgInfo (hash : List Nat → String) (baseFileName : String) (pageNumber : Nat)
    (xreflist : List Nat) (st : ExtractState) (imgIndex : Nat) (info : PdfImageInfo) :
    ExtractState :=
  if info.xref ∈ xreflist then st
  else if info.width < 50 || info.height < 50 then st
  else if (st.imageHashes.map Prod.fst).contains (hash info.content) then st
  else
    { imageHashes := st.imageHashes ++
        [(hash info.content,
          baseFileName ++ "-" ++ pad4 (pageNumber + 1) ++ "-" ++ pad4 (imgIndex + 1) ++ ".png")]
      savedFiles := st.savedFiles ++
        [(baseFileName ++ "-" ++ pad4 (pageNumber + 1) ++ "-" ++ pad4 (imgIndex + 1) ++ ".png",
          info)] }

/-- `ModuleIndex._extract_embedded_images_from_page`: fold the loop body
over the enumerated image list of one page. -/
def extractEmbeddedImagesFromPage (hash : List Nat → String) (baseFileName : String)
    (pageNumber : Nat) (xreflist : List Nat) (st : ExtractState) (page : PdfPage) :
    ExtractState :=
  page.images.enum.foldl
    (fun st p => processImgInfo hash baseFileName pageNumber xreflist st p.1 p.2) st

/-- `ModuleIndex._process_pdf`: iterate over the pages of one document.
`xreflist` is created fresh for each document (and, in this revision,
never extended), while the hash state is the instance state threaded
through. -/
def processPdf (hash : List Nat → String) (st : ExtractState) (pdf : PdfFile) :
    ExtractState :=
  pdf.pages.enum.foldl
    (fun st p => extractEmbeddedImagesFromPage hash pdf.stem p.1 [] st p.2) st

/-- `ModuleIndex._process_pdfs`: process every PDF of the module
directory in order, starting from the freshly initialised instance state
(empty hash map, cleaned `embedded-images/` directory). -/
def processPdfs (hash : List Nat → String) (pdfs : List PdfFile) : ExtractState :=
  pdfs.foldl (processPdf hash) ⟨[], []⟩

/-- Folding a step function that preserves a predicate preserves it over
a whole list. -/
theorem foldl_preserves {α β : Type} (P : β → Prop) (f : β → α → β)
    (hf : ∀ b a, P b → P (f b a)) : ∀ (l : List α) (b : β), P b → P (l.foldl f b) := by
  intro l
  induction l with
  | nil => intro b hb; exact hb
  | cons a l ih => intro b hb; exact ih (f b a) (hf b a hb)

/-- Every file saved by the loop body was saved with dimensions at least
50 in both directions, provided that was true of the state before. -/
theorem processImgInfo_dims (hash : List Nat → String) (base : String) (pg : Nat)
    (xl : List Nat) (st : ExtractState) (idx : Nat) (info : PdfImageInfo)
    (hst : ∀ e ∈ st.savedFiles, 50 ≤ e.2.width ∧ 50 ≤ e.2.height) :
    ∀ e ∈ (processImgInfo hash base pg xl st idx info).savedFiles,
      50 ≤ e.2.width ∧ 50 ≤ e.2.height := by
  intro e he
  unfold processImgInfo at he
  split at he
  · exact hst e he
  · rename_i hdim
    split at he
    · exact hst e he
    · split at he
      · exact hst e he
      · simp only [List.mem_append, List.mem_singleton] at he
        rcases he with he | he
        · exact hst e he
        · subst he
          rename_i hsmall _
          simp only [Bool.or_eq_true, decide_eq_true_eq, not_or, Nat.not_lt] at hsmall
          exact ⟨hsmall.1, hsmall.2⟩

/-- Dimension invariant lifted to a whole page. -/
theorem extractEmbeddedImagesFromPage_dims (hash : List Nat → String) (base : String)
    (pg : Nat) (xl : List Nat) (st : ExtractState) (page : PdfPage)
    (hst : ∀ e ∈ st.savedFiles, 50 ≤ e.2.width ∧ 50 ≤ e.2.height) :
    ∀ e ∈ (extractEmbeddedImagesFromPage hash base pg xl st page).savedFiles,
      50 ≤ e.2.width ∧ 50 ≤ e.2.height := by
  unfold extractEmbeddedImagesFromPage
  exact foldl_preserves (fun s => ∀ e ∈ s.savedFiles, 50 ≤ e.2.width ∧ 50 ≤ e.2.height)
    _ (fun st p h => processImgInfo_dims hash base pg xl st p.1 p.2 h) page.images.enum st hst

/-- Dimension invariant lifted to a whole document. -/
theorem processPdf_dims (hash : List Nat → String) (st : ExtractState) (pdf : PdfFile)
    (hst : ∀ e ∈ st.savedFiles, 50 ≤ e.2.width ∧ 50 ≤ e.2.height) :
    ∀ e ∈ (processPdf hash st pdf).savedFiles, 50 ≤ e.2.width ∧ 50 ≤ e.2.height := by
  unfold processPdf
  exact foldl_preserves (fun s => ∀ e ∈ s.savedFiles, 50 ≤ e.2.width ∧ 50 ≤ e.2.height)
    _ (fun st p h => extractEmbeddedImagesFromPage_dims hash pdf.stem p.1 [] st p.2 h)
    pdf.pages.enum st hst

/-- C5: For every embedded raster image encountered in any page of any
PDF of the module run, if its width is below 50 pixels or its height is
below 50 pixels, no file for it is written to `embedded-images/`: every
file the extractor persists has width at least 50 and height at least
50. -/
theorem small_images_never_written (hash : List Nat → String) (pdfs : List PdfFile) :
    ∀ e ∈ (processPdfs hash pdfs).savedFiles, 50 ≤ e.2.width ∧ 50 ≤ e.2.height := by
  unfold processPdfs
  exact foldl_preserves (fun s => ∀ e ∈ s.savedFiles, 50 ≤ e.2.width ∧ 50 ≤ e.2.height)
    _ (fun st pdf h => processPdf_dims hash st pdf h) pdfs ⟨[], []⟩ (by intro e he; cases he)

/-- A concrete hash function standing in for SHA-256 in executable
counterexamples: the decimal rendering of the byte list (injective, as a
cryptographic hash is collision-free in practice). -/
def demoHash (content : List Nat) : String := toString content

/-- A one-page PDF named `a` with a single 100 by 100 image. -/
def demoPdfA : PdfFile := ⟨"a", [⟨[⟨1, 100, 100, [7]⟩]⟩]⟩

/-- A one-page PDF named `b` with a single image whose bytes equal those
of the image of `demoPdfA`. -/
def demoPdfB : PdfFile := ⟨"b", [⟨[⟨1, 100, 100, [7]⟩]⟩]⟩

/-- Witness for `small_images_never_written`: the file saved from
`demoPdfA` has dimensions 100 by 100. -/
theorem small_images_never_written_witness :
    50 ≤ (PdfImageInfo.mk 1 100 100 [7]).width ∧
      50 ≤ (PdfImageInfo.mk 1 100 100 [7]).height :=
  small_images_never_written demoHash [demoPdfA]
    ("a-0001-0001.png", ⟨1, 100, 100, [7]⟩) (by decide)

/-- Counterexample to C1 as stated: running the extractor over the two
documents `a` and `b`, whose single embedded images have identical
content (hence identical content hash), persists only the file from `a`.
The file `b-0001-0001.png` that the claim requires (the hash set being
reset between documents) is never written: `_image_hashes` is created
once in `__init__` and survives across documents. -/
theorem dedup_not_reset_between_documents :
    (processPdfs demoHash [demoPdfA, demoPdfB]).savedFiles.map Prod.fst =
        ["a-0001-0001.png"] ∧
      "b-0001-0001.png" ∉ (processPdfs demoHash [demoPdfA, demoPdfB]).savedFiles.map Prod.fst := by
  constructor
  · rfl
  · decide

/-- The loop body keeps the saved-file hashes aligned with the recorded
hash keys and keeps those keys free of duplicates. -/
theorem processImgInfo_hashes (hash : List Nat → String) (base : String) (pg : Nat)
    (xl : List Nat) (st : ExtractState) (idx : Nat) (info : PdfImageInfo)
    (hst : st.savedFiles.map (fun e => hash e.2.content) = st.imageHashes.map Prod.fst ∧
      (st.imageHashes.map Prod.fst).Nodup) :
    (processImgInfo hash base pg xl st idx info).savedFiles.map (fun e => hash e.2.content) =
        (processImgInfo hash base pg xl st idx info).imageHashes.map Prod.fst ∧
      ((processImgInfo hash base pg xl st idx info).imageHashes.map Prod.fst).Nodup := by
  unfold processImgInfo
  split
  · exact hst
  · split
    · exact hst
    · split
      · exact hst
      · rename_i hcont
        have hnotmem : hash info.content ∉ st.imageHashes.map Prod.fst := by
          simpa using hcont
        constructor
        · simp [hst.1]
        · simp [List.nodup_append, hst.2, hnotmem]

/-- Hash alignment invariant lifted to a whole page. -/
theorem extractEmbeddedImagesFromPage_hashes (hash : List Nat → String) (base : String)
    (pg : Nat) (xl : List Nat) (st : ExtractState) (page : PdfPage)
    (hst : st.savedFiles.map (fun e => hash e.2.content) = st.imageHashes.map Prod.fst ∧
      (st.imageHashes.map Prod.fst).Nodup) :
    (extractEmbeddedImagesFromPage hash base pg xl st page).savedFiles.map
          (fun e => hash e.2.content) =
        (extractEmbeddedImagesFromPage hash base pg xl st page).imageHashes.map Prod.fst ∧
      ((extractEmbeddedImagesFromPage hash base pg xl st page).imageHashes.map Prod.fst).Nodup := by
  unfold extractEmbeddedImagesFromPage
  exact foldl_preserves
    (fun s => s.savedFiles.map (fun e => hash e.2.content) = s.imageHashes.map Prod.fst ∧
      (s.imageHashes.map Prod.fst).Nodup)
    _ (fun st p h => processImgInfo_hashes hash base pg xl st p.1 p.2 h) page.images.enum st hst

/-- Hash alignment invariant lifted to a whole document. -/
theorem processPdf_hashes (hash : List Nat → String) (st : ExtractState) (pdf : PdfFile)
    (hst : st.savedFiles.map (fun e => hash e.2.content) = st.imageHashes.map Prod.fst ∧
      (st.imageHashes.map Prod.fst).Nodup) :
    (processPdf hash st pdf).savedFiles.map (fun e => hash e.2.content) =
        (processPdf hash st pdf).imageHashes.map Prod.fst ∧
      ((processPdf hash st pdf).imageHashes.map Prod.fst).Nodup := by
  unfold processPdf
  exact foldl_preserves
    (fun s => s.savedFiles.map (fun e => hash e.2.content) = s.imageHashes.map Prod.fst ∧
      (s.imageHashes.map Prod.fst).Nodup)
    _ (fun st p h => extractEmbeddedImagesFromPage_hashes hash pdf.stem p.1 [] st p.2 h)
    pdf.pages.enum st hst

/-- C1 (amended): the SHA-256 duplicate filter is scoped per module run,
not per document: across all PDFs processed by one `ModuleIndex`
instance, no two persisted embedded images share a content hash, so only
the first image with a given hash anywhere in the run is persisted and a
later match — whether in the same document or a later one — is skipped. -/
theorem dedup_scoped_per_module_run (hash : List Nat → String) (pdfs : List PdfFile) :
    ((processPdfs hash pdfs).savedFiles.map (fun e => hash e.2.content)).Nodup := by
  have h := foldl_preserves
    (fun s => s.savedFiles.map (fun e => hash e.2.content) = s.imageHashes.map Prod.fst ∧
      (s.imageHashes.map Prod.fst).Nodup)
    (processPdf hash) (fun st pdf hp => processPdf_hashes hash st pdf hp) pdfs ⟨[], []⟩
    (by constructor <;> simp)
  rw [show (processPdfs hash pdfs) = pdfs.foldl (processPdf hash) ⟨[], []⟩ from rfl, h.1]
  exact h.2

/-- `ModuleIndex._save_page_image`: the page rendered as
`{base}-{page.number+1:04d}.png` (`pageNumber` is the 0-based
`page.number`). -/
def savePageImageName (baseFileName : String) (pageNumber : Nat) : String :=
  baseFileName ++ "-" ++ pad4 (pageNumber + 1) ++ ".png"

/-- Decimal digit accumulation for `int(...)`. -/
def parseDigitsAux : List Char → Nat → Option Nat
  | [], acc => some acc
  | c :: rest, acc =>
      if c.isDigit then parseDigitsAux rest (acc * 10 + (c.toNat - 48)) else none

/-- Python `int(s)` restricted to optionally-signed decimal strings (the
only shapes arising from the filenames this script generates); `none`
models the `ValueError` branch. -/
def pyParseInt (s : String) : Option Int :=
  match s.data with
  | [] => none
  | c :: rest =>
      if c = '-' then
        if rest.isEmpty then none
        else (parseDigitsAux rest 0).map (fun n => -(n : Int))
      else (parseDigitsAux (c :: rest) 0).map Int.ofNat

/-- Helper for `pySplitDash`: accumulate the current field (reversed)
while scanning. -/
def splitDashAux : List Char → List Char → List (List Char)
  | [], cur => [cur.reverse]
  | c :: rest, cur =>
      if c = '-' then cur.reverse :: splitDashAux rest []
      else splitDashAux rest (c :: cur)

/-- Python `s.split('-')`: the fields between the dashes, with empty
fields preserved (and `[""]` for the empty string). -/
def pySplitDash (s : String) : List String := (splitDashAux s.data []).map String.mk

/-- Python `'-'.join(parts)`. -/
def joinDash : List String → String
  | [] => ""
  | [x] => x
  | x :: xs => x ++ "-" ++ joinDash xs

/-- One element of the multimodal message content list built by
`_process_single_embedded_image`: a text part or an image part (the
image identified by its filename). -/
inductive ContentItem where
  | text : String → ContentItem
  | image : String → ContentItem
deriving DecidableEq, Repr

/-- The message-construction phase of
`ModuleIndex._process_single_embedded_image`: parse the embedded-image
stem into document stem and page number, require the corresponding page
image (named with a zero-padded page number) to exist, then bundle the
task text, the embedded image, the page image, and — only when a file
named with the UNpadded neighbour page number exists — the previous and
next page images. Returns `none` when the item is skipped. -/
def processSingleEmbeddedImageMsg (pageImageFiles : List String) (stemName : String) :
    Option (List ContentItem) :=
  let parts := pySplitDash stemName
  if parts.length < 3 then none
  else
    match pyParseInt (parts.getD (parts.length - 2) "") with
    | none => none
    | some pageNum =>
      let baseFileName := joinDash (parts.take (parts.length - 2))
      let pageImageName := baseFileName ++ "-" ++ pad4Int pageNum ++ ".png"
      if pageImageName ∈ pageImageFiles then
        let prevPageImageName := baseFileName ++ "-" ++ toString (pageNum - 1) ++ ".png"
        let nextPageImageName := baseFileName ++ "-" ++ toString (pageNum + 1) ++ ".png"
        some
          ([ContentItem.text ("Analyzing embedded image from page " ++ toString pageNum ++
              " of document \x27" ++ baseFileName ++ "\x27"),
            ContentItem.image (stemName ++ ".png"),
            ContentItem.text ("Full page " ++ toString pageNum ++
              " where the embedded image appears:"),
            ContentItem.image pageImageName] ++
          (if prevPageImageName ∈ pageImageFiles then
            [ContentItem.text ("Previous page " ++ toString (pageNum - 1) ++ ":"),
             ContentItem.image prevPageImageName]
          else []) ++
          (if nextPageImageName ∈ pageImageFiles then
            [ContentItem.text ("Next page " ++ toString (pageNum + 1) ++ ":"),
             ContentItem.image nextPageImageName]
          else []))
      else none

/-- C2 divergence, evaluated at the failing input: for a six-page
document whose page images were produced by `_save_page_image`
(zero-padded names `doc-0001.png` … `doc-0006.png`), the message built
for embedded image `doc-0005-0001.png` contains only the task text, the
embedded image and page 5 itself. The neighbour lookups probe the
unpadded names `doc-4.png` and `doc-6.png`, so pages 4 and 6 are never
bundled even though their files exist. -/
theorem neighbor_pages_never_bundled :
    processSingleEmbeddedImageMsg ((List.range 6).map (savePageImageName "doc"))
        "doc-0005-0001" =
      some
        [ContentItem.text "Analyzing embedded image from page 5 of document \x27doc\x27",
         ContentItem.image "doc-0005-0001.png",
         ContentItem.text "Full page 5 where the embedded image appears:",
         ContentItem.image "doc-0005.png"] ∧
      savePageImageName "doc" 3 ∈ (List.range 6).map (savePageImageName "doc") ∧
      savePageImageName "doc" 5 ∈ (List.range 6).map (savePageImageName "doc") ∧
      ContentItem.image (savePageImageName "doc" 3) ∉
        [ContentItem.text "Analyzing embedded image from page 5 of document \x27doc\x27",
         ContentItem.image "doc-0005-0001.png",
         ContentItem.text "Full page 5 where the embedded image appears:",
         ContentItem.image "doc-0005.png"] ∧
      ContentItem.image (savePageImageName "doc" 5) ∉
        [ContentItem.text "Analyzing embedded image from page 5 of document \x27doc\x27",
         ContentItem.image "doc-0005-0001.png",
         ContentItem.text "Full page 5 where the embedded image appears:",
         ContentItem.image "doc-0005.png"] := by
  refine ⟨by rfl, by decide, by decide, by decide, by decide⟩

/-- Python `content.find(c)`: index of the first occurrence, `-1` when
absent. -/
def pyFind (s : String) (c : Char) : Int :=
  match s.data.findIdx? (fun x => x == c) with
  | some i => Int.ofNat i
  | none => -1

/-- Python `content.rfind(c)`: index of the last occurrence, `-1` when
absent. -/
def pyRFind (s : String) (c : Char) : Int :=
  match s.data.reverse.findIdx? (fun x => x == c) with
  | some i => Int.ofNat (s.data.length - 1 - i)
  | none => -1

/-- The JSON-extraction step of `_process_single_embedded_image`
(lines 404-408): take the substring from the first opening brace to the
LAST closing brace (`content.find` / `content.rfind`), requiring both to
exist with the closing one strictly later; `none` models the
`ValueError` raised otherwise. -/
def extractJsonSpan (content : String) : Option String :=
  if pyFind content '\x7b' ≠ -1 ∧ pyRFind content '\x7d' ≠ -1 ∧
      pyFind content '\x7b' < pyRFind content '\x7d' then
    some (String.mk ((content.data.drop (pyFind content '\x7b').toNat).take
      ((pyRFind content '\x7d').toNat + 1 - (pyFind content '\x7b').toNat)))
  else none

/-- Helper for `firstBalancedSpan`: position of the closing brace that
matches the opening brace already seen, scanning with a depth counter. -/
def matchCloseAux : List Char → Nat → Nat → Option Nat
  | [], _, _ => none
  | c :: rest, depth, pos =>
      if c = '\x7b' then matchCloseAux rest (depth + 1) (pos + 1)
      else if c = '\x7d' then
        if depth = 1 then some pos else matchCloseAux rest (depth - 1) (pos + 1)
      else matchCloseAux rest depth (pos + 1)

/-- Modelled from the claim wording (not from the code): the first
balanced brace span of the text, i.e. the substring from the first
opening brace to its matching closing brace. -/
def firstBalancedSpan (content : String) : Option String :=
  match content.data.findIdx? (fun x => x == '\x7b') with
  | none => none
  | some i =>
      match matchCloseAux (content.data.drop i) 0 0 with
      | none => none
      | some j => some (String.mk ((content.data.drop i).take (j + 1)))

/-- Modelled from the amended claim wording: the substring from the
first opening brace to the last closing brace, provided the latter lies
strictly after the former. -/
def firstToLastBraceSpan (content : String) : Option String :=
  match content.data.findIdx? (fun x => x == '\x7b'),
        content.data.reverse.findIdx? (fun x => x == '\x7d') with
  | some i, some jr =>
      if i < content.data.length - 1 - jr then
        some (String.mk ((content.data.drop i).take
          (content.data.length - 1 - jr + 1 - i)))
      else none
  | none, _ => none
  | some _, none => none

/-- The response-handling step: the text extracted by the code is handed
to `json.loads` (abstracted as `parse`); the parsed object, when parsing
succeeds, is what gets written to the sibling `.json` file. -/
def processLlmResponse {J : Type} (parse : String → Option J) (content : String) :
    Option J :=
  (extractJsonSpan content).bind parse

/-- Counterexample to C3 as stated: on the response text consisting of a
balanced empty brace pair followed by a space and one extra closing
brace, the code extracts the span up to the LAST closing brace, which is
not the first balanced span (and, being ill-formed, fails to parse as
JSON, so nothing is written, where the claim would have the first
balanced object written). -/
theorem json_span_not_first_balanced :
    extractJsonSpan "\x7b\x7d \x7d" = some "\x7b\x7d \x7d" ∧
      firstBalancedSpan "\x7b\x7d \x7d" = some "\x7b\x7d" ∧
      extractJsonSpan "\x7b\x7d \x7d" ≠ firstBalancedSpan "\x7b\x7d \x7d" := by
  refine ⟨by rfl, by rfl, by decide⟩

/-- The extraction the code performs is exactly the first-to-last brace
slice. -/
theorem extractJsonSpan_eq_firstToLast (content : String) :
    extractJsonSpan content = firstToLastBraceSpan content := by
  unfold extractJsonSpan firstToLastBraceSpan pyFind pyRFind
  rcases h1 : content.data.findIdx? (fun x => x == '\x7b') with _ | i <;>
    rcases h2 : content.data.reverse.findIdx? (fun x => x == '\x7d') with _ | jr <;>
      simp only [h1, h2, Int.ofNat_eq_coe]
  · rw [if_neg]; intro hc; exact hc.1 rfl
  · rw [if_neg]; intro hc; exact hc.1 rfl
  · rw [if_neg]; intro hc; exact hc.2.1 rfl
  · by_cases hlt : i < content.data.length - 1 - jr
    · rw [if_pos, if_pos hlt]
      · simp
      · refine ⟨by omega, by omega, by omega⟩
    · rw [if_neg, if_neg hlt]
      intro hc
      exact hlt (by omega)

/-- C3 (amended): for every raw LLM response text, the annotator
extracts the substring from the first opening brace to the LAST closing
brace (requiring the latter to lie strictly after the former) and parses
that substring as JSON; the parsed object, when parsing succeeds, is
what gets written to the sibling `.json` file. -/
theorem json_written_is_first_to_last_span {J : Type} (parse : String → Option J)
    (content : String) :
    processLlmResponse parse content = (firstToLastBraceSpan content).bind parse := by
  unfold processLlmResponse
  rw [extractJsonSpan_eq_firstToLast]

/-- `ModuleIndex._process_single_embedded_image` end to end: build the
multimodal message, send it once to the provider (`sendSeq k` is the
outcome the provider would give to the k-th send attempt; the code
performs a single send, consulting only attempt 0), extract and parse
the JSON span, and return the sidecar file written (`none` when the item
is skipped: send errors and parse errors are caught, logged and produce
no file). -/
def processSingleEmbeddedImage {J : Type} (pageImageFiles : List String) (stemName : String)
    (sendSeq : Nat → List ContentItem → Except String String)
    (parse : String → Option J) : Option (String × J) :=
  match processSingleEmbeddedImageMsg pageImageFiles stemName with
  | none => none
  | some items =>
      match sendSeq 0 items with
      | Except.error _ => none
      | Except.ok content =>
          match processLlmResponse parse content with
          | none => none
          | some j => some (stemName ++ ".json", j)

/-- `ModuleIndex._process_embedded_images_with_llm`: every embedded
image is processed in turn; the surrounding try/except logs per-item
errors and moves on, so each item contributes exactly one (possibly
empty) outcome. -/
def processEmbeddedImagesWithLlm {J : Type} (pageImageFiles : List String)
    (stems : List String) (sendSeq : Nat → List ContentItem → Except String String)
    (parse : String → Option J) : List (Option (String × J)) :=
  stems.map (fun st => processSingleEmbeddedImage pageImageFiles st sendSeq parse)

/-- C6: for every embedded image whose LLM request fails or whose
response fails to parse as JSON, no `.json` sidecar is written; the
single send attempt is never retried (the outcome depends only on the
first attempt); and the batch is not aborted: every other image, before
or after a failing one, is still processed exactly as it would be on its
own. -/
theorem llm_failures_skip_image {J : Type} (files : List String) (stem : String)
    (sendSeq sendSeq₂ : Nat → List ContentItem → Except String String)
    (parse : String → Option J) :
    (∀ (items : List ContentItem) (e : String),
        processSingleEmbeddedImageMsg files stem = some items →
        sendSeq 0 items = Except.error e →
        processSingleEmbeddedImage files stem sendSeq parse = none) ∧
    (∀ (items : List ContentItem) (content : String),
        processSingleEmbeddedImageMsg files stem = some items →
        sendSeq 0 items = Except.ok content →
        processLlmResponse parse content = none →
        processSingleEmbeddedImage files stem sendSeq parse = none) ∧
    (sendSeq 0 = sendSeq₂ 0 →
        processSingleEmbeddedImage files stem sendSeq parse =
          processSingleEmbeddedImage files stem sendSeq₂ parse) ∧
    (∀ (pre post : List String) (s : String),
        processEmbeddedImagesWithLlm files (pre ++ s :: post) sendSeq parse =
          processEmbeddedImagesWithLlm files pre sendSeq parse ++
            processSingleEmbeddedImage files s sendSeq parse ::
              processEmbeddedImagesWithLlm files post sendSeq parse) := by
  refine ⟨?_, ?_, ?_, ?_⟩
  · intro items e hmsg hsend
    simp [processSingleEmbeddedImage, hmsg, hsend]
  · intro items content hmsg hsend hparse
    simp [processSingleEmbeddedImage, hmsg, hsend, hparse]
  · intro hfirst
    unfold processSingleEmbeddedImage
    rw [hfirst]
  · intro pre post s
    unfold processEmbeddedImagesWithLlm
    simp

/-- Witness for `llm_failures_skip_image`: a provider that errors on the
send leaves no sidecar for `doc-0001-0001.png`. -/
theorem llm_failures_skip_image_witness :
    processSingleEmbeddedImage ["doc-0001.png"] "doc-0001-0001"
        (fun _ _ => Except.error "boom") (fun _ => (none : Option Unit)) = none :=
  (llm_failures_skip_image ["doc-0001.png"] "doc-0001-0001"
      (fun _ _ => Except.error "boom") (fun _ _ => Except.error "boom")
      (fun _ => (none : Option Unit))).1
    [ContentItem.text "Analyzing embedded image from page 1 of document \x27doc\x27",
     ContentItem.image "doc-0001-0001.png",
     ContentItem.text "Full page 1 where the embedded image appears:",
     ContentItem.image "doc-0001.png"] "boom" (by rfl) (by rfl)

/-- A JSON value as produced by `json.load`: objects are ordered
key-value lists (Python dicts preserve insertion order). -/
inductive JsonVal where
  | str : String → JsonVal
  | num : Int → JsonVal
  | bool : Bool → JsonVal
  | null : JsonVal
  | arr : List JsonVal → JsonVal
  | obj : List (String × JsonVal) → JsonVal

/-- Python `d[k] = v` on a dict: overwrite the existing binding or
append a new one. -/
def setKey : List (String × JsonVal) → String → JsonVal → List (String × JsonVal)
  | [], k, v => [(k, v)]
  | (k0, v0) :: rest, k, v =>
      if k0 = k then (k, v) :: rest else (k0, v0) :: setKey rest k v

/-- The body of the per-file loop of
`ModuleIndex._combine_embedded_image_json_files`: a file whose contents
parsed to a dict gets the `image_filename` field set to its stem plus
`.png` and is added under its stem; a file that failed to read or parse
(`none`), or whose parsed value is not a dict (the item assignment
raises `TypeError`, caught by the blanket `except`), is skipped. -/
def combineStep (acc : List (String × JsonVal)) (item : String × Option JsonVal) :
    List (String × JsonVal) :=
  match item.2 with
  | some (JsonVal.obj fields) =>
      acc ++ [(item.1,
        JsonVal.obj (setKey fields "image_filename" (JsonVal.str (item.1 ++ ".png"))))]
  | _ => acc

/-- `ModuleIndex._combine_embedded_image_json_files`: fold the per-file
step over the JSON files found (each given as its stem and its parse
outcome), starting from the empty manifest. -/
def combineEmbeddedImageJsonFiles (items : List (String × Option JsonVal)) :
    List (String × JsonVal) := items.foldl combineStep []

/-- The manifest entry one input file contributes, if any. -/
def annotEntry (item : String × Option JsonVal) : Option (String × JsonVal) :=
  match item.2 with
  | some (JsonVal.obj fields) =>
      some (item.1,
        JsonVal.obj (setKey fields "image_filename" (JsonVal.str (item.1 ++ ".png"))))
  | _ => none

/-- One combiner step appends exactly the entry `annotEntry` assigns to
the item. -/
theorem combineStep_eq_toList (acc : List (String × JsonVal))
    (item : String × Option JsonVal) :
    combineStep acc item = acc ++ (annotEntry item).toList := by
  unfold combineStep annotEntry
  rcases item with ⟨stem, r⟩
  cases r with
  | none => simp
  | some v => cases v <;> simp

/-- The combiner fold, from any accumulator, appends the entries of the
remaining items in order. -/
theorem combine_foldl (items : List (String × Option JsonVal)) :
    ∀ acc, items.foldl combineStep acc = acc ++ items.filterMap annotEntry := by
  induction items with
  | nil => intro acc; simp
  | cons it its ih =>
      intro acc
      rw [List.foldl_cons, ih, combineStep_eq_toList, List.filterMap_cons]
      cases h : annotEntry it <;> simp [h]

/-- The stems of the contributed entries form a sublist of the input
stems. -/
theorem annotEntry_keys_sublist (items : List (String × Option JsonVal)) :
    ((items.filterMap annotEntry).map Prod.fst).Sublist (items.map Prod.fst) := by
  induction items with
  | nil => simp
  | cons it its ih =>
      rw [List.filterMap_cons]
      cases h : annotEntry it with
      | none => exact (List.map_cons _ _ _).symm ▸ ih.cons it.1
      | some e =>
          have he : e.1 = it.1 := by
            unfold annotEntry at h
            rcases it with ⟨stem, r⟩
            cases r with
            | none => cases h
            | some v =>
                cases v <;> cases h
                rfl
          simp only [List.map_cons, he]
          exact ih.cons₂ it.1

/-- C7 (amended): the combined manifest contains exactly one entry per
JSON file whose contents successfully parsed to a JSON OBJECT, keyed by
that file's stem, with the `image_filename` field set to the stem plus
`.png`; files that fail to read or parse, or whose parsed value is not
an object, are skipped without aborting the run, and (the stems being
distinct, as filenames in one directory are) no stem is mapped twice. -/
theorem manifest_one_entry_per_parsed_object (items : List (String × Option JsonVal))
    (hnd : (items.map Prod.fst).Nodup) :
    combineEmbeddedImageJsonFiles items = items.filterMap annotEntry ∧
      ((combineEmbeddedImageJsonFiles items).map Prod.fst).Nodup := by
  have heq : combineEmbeddedImageJsonFiles items = items.filterMap annotEntry := by
    unfold combineEmbeddedImageJsonFiles
    rw [combine_foldl]
    simp
  exact ⟨heq, heq ▸ (annotEntry_keys_sublist items).nodup hnd⟩

/-- Witness for `manifest_one_entry_per_parsed_object` at a two-file
input: one object file and one file that failed to parse. -/
theorem manifest_one_entry_per_parsed_object_witness :
    combineEmbeddedImageJsonFiles
          [("a-0001-0001", some (JsonVal.obj [("description", JsonVal.str "x")])),
           ("a-0001-0002", none)] =
        [("a-0001-0001", some (JsonVal.obj [("description", JsonVal.str "x")])),
            ("a-0001-0002", (none : Option JsonVal))].filterMap annotEntry ∧
      ((combineEmbeddedImageJsonFiles
          [("a-0001-0001", some (JsonVal.obj [("description", JsonVal.str "x")])),
           ("a-0001-0002", none)]).map Prod.fst).Nodup :=
  manifest_one_entry_per_parsed_object
    [("a-0001-0001", some (JsonVal.obj [("description", JsonVal.str "x")])),
     ("a-0001-0002", none)] (by decide)

/-- Counterexample to C7 as stated: a JSON file with stem `a` whose
contents successfully parse — to an array, not an object — contributes
no manifest entry, so the manifest does not contain one entry per
successfully parsed file. -/
theorem parsed_array_contributes_no_entry :
    combineEmbeddedImageJsonFiles [("a", some (JsonVal.arr []))] = [] ∧
      (some (JsonVal.arr [])).isSome = true :=
  ⟨rfl, rfl⟩

/-- `stamina.retry(on=Exception, attempts=n)` around a body `f` (given
the outcome of each potential call attempt): call the body; when the
call raises, call again, until `n` attempts have been made, then let the
exception propagate. Returns the final outcome and the number of calls
actually made. -/
def staminaRetry (f : Nat → Except Unit Bool) : Nat → Nat → Except Unit Bool × Nat
  | k, 0 => (Except.error (), k)
  | k, budget + 1 =>
      match f k with
      | Except.ok b => (Except.ok b, k + 1)
      | Except.error e =>
          if budget = 0 then (Except.error e, k + 1)
          else staminaRetry f (k + 1) budget

/-- The body of `RuleSetRag._upsert_to_qdrant` as the code has it:
`upsertRaises k` says whether the k-th `qdrant_client.upsert` call
raises, but the surrounding try/except catches the exception, prints it
and returns `False` — the body itself never raises. -/
def upsertToQdrantBody (upsertRaises : Nat → Bool) (k : Nat) : Except Unit Bool :=
  Except.ok (!(upsertRaises k))

/-- `_upsert_to_qdrant` under its `@stamina.retry(on=Exception,
attempts=3)` decorator. -/
def upsertToQdrantWithRetry (upsertRaises : Nat → Bool) : Except Unit Bool × Nat :=
  staminaRetry (upsertToQdrantBody upsertRaises) 0 3

/-- Modelled from the spec: the upsert body the claim describes, in
which a failing `upsert` call raises out of the function so the retry
decorator can observe it. -/
def claimedUpsertBody (upsertRaises : Nat → Bool) (k : Nat) : Except Unit Bool :=
  if upsertRaises k then Except.error () else Except.ok true

/-- C4 divergence, evaluated at the failing input: with an upsert that
raises on the first attempt and would succeed on the second, the code
makes exactly one attempt and returns `False` (the inner `except`
swallows the exception, so `stamina.retry` never sees a failure and
never retries); had the exception propagated as the claim describes, the
decorator would have made a second, successful attempt. In fact the code
performs exactly one attempt for every failure pattern. -/
theorem upsert_failure_never_retried :
    upsertToQdrantWithRetry (fun k => k == 0) = (Except.ok false, 1) ∧
      staminaRetry (claimedUpsertBody (fun k => k == 0)) 0 3 = (Except.ok true, 2) ∧
      ∀ upsertRaises : Nat → Bool, (upsertToQdrantWithRetry upsertRaises).2 = 1 := by
  refine ⟨rfl, rfl, fun upsertRaises => rfl⟩

/-- Python `s.lower()` (over the ASCII range the queries use). -/
def pyLower (s : String) : String := String.mk (s.data.map Char.toLower)

/-- Python `s.upper()` (over the ASCII range the queries use). -/
def pyUpper (s : String) : String := String.mk (s.data.map Char.toUpper)

/-- Python `s.capitalize()`: first character uppercased, the rest
lowercased. -/
def pyCapitalize (s : String) : String :=
  match s.data with
  | [] => ""
  | c :: rest => String.mk (c.toUpper :: rest.map Char.toLower)

/-- The query augmentation of `RuleSetRag.get_page_image_paths`: the
original text, its capitalized, lowercase and uppercase variants,
space-separated. -/
def augmentQuery (q : String) : String :=
  q ++ " " ++ pyCapitalize q ++ " " ++ pyLower q ++ " " ++ pyUpper q

/-- `RuleSetRag.get_page_image_paths`: embed the augmented query
(`embed` stands for processor plus model inference), run the
nearest-neighbour search against the collection (`queryPoints`, a
function of the fixed collection state, returning ranked point IDs
limited to `topK`), and map each returned ID through the cached sorted
path list (`none` models the `IndexError` on an out-of-range ID). -/
def getPageImagePaths {E σ : Type} (embed : String → E)
    (queryPoints : σ → E → Nat → List Nat) (collection : σ) (pathCache : List String)
    (queryText : String) (topK : Nat) : Option (List String) :=
  (queryPoints collection (embed (augmentQuery queryText)) topK).mapM
    (fun rowId => pathCache.get? rowId)

/-- C8: for a fixed query string and fixed index contents (fixed
embedding model, collection state and cached sorted path list), two
invocations of the query operation produce identical ordered result
lists: every stage is a pure function of its inputs and no state is
mutated by a query. -/
theorem query_deterministic {E σ : Type} (embed : String → E)
    (queryPoints : σ → E → Nat → List Nat) (collection : σ) (pathCache : List String)
    (queryText : String) (topK : Nat) (r₁ r₂ : Option (List String))
    (h₁ : r₁ = getPageImagePaths embed queryPoints collection pathCache queryText topK)
    (h₂ : r₂ = getPageImagePaths embed queryPoints collection pathCache queryText topK) :
    r₁ = r₂ := h₁.trans h₂.symm

/-- Witness for `query_deterministic`: two evaluated invocations of a
concrete instance agree. -/
theorem query_deterministic_witness :
    (some ["page_image/SRD3_5-0001.png"] : Option (List String)) =
      some ["page_image/SRD3_5-0001.png"] :=
  query_deterministic (fun s => s.length) (fun _ _ _ => [0]) ()
    ["page_image/SRD3_5-0001.png"] "grapple" 10
    (some ["page_image/SRD3_5-0001.png"]) (some ["page_image/SRD3_5-0001.png"])
    (by rfl) (by rfl)

/-- `BATCH_SIZE` of `colqwen2.py`. -/
def BATCH_SIZE : Nat := 3

/-- One point built by `_upsert_to_qdrant`: the integer point ID
(`i + j`), the index in the sorted path list of the image whose
embedding this point stores (tracked as provenance), and the `source`
payload `image_file_paths[i + j]`. -/
structure UpsertPoint where
  id : Nat
  srcIndex : Nat
  payloadPath : String
deriving DecidableEq, Repr

/-- The `for j, embedding in enumerate(image_embeddings)` loop of
`_upsert_to_qdrant`: the j-th embedding of the batch (whatever image it
came from) is stored under ID `i + j` with payload
`image_file_paths[i + j]`. -/
def upsertPointsAux (paths : List String) (i : Nat) : Nat → List Nat → List UpsertPoint
  | _, [] => []
  | j, jsrc :: rest =>
      ⟨i + j, jsrc, (paths.get? (i + j)).getD ""⟩ :: upsertPointsAux paths i (j + 1) rest

/-- The points `_upsert_to_qdrant` builds for the batch starting at `i`,
given the source indices of the successfully loaded images in order. -/
def upsertPoints (paths : List String) (i : Nat) (srcIdxs : List Nat) : List UpsertPoint :=
  upsertPointsAux paths i 0 srcIdxs

/-- The image-loading loop of `_generate_image_embeddings` for the batch
starting at `i`: the indices `j` in `range(i, min(i + BATCH_SIZE, n))`
whose `Image.open` succeeded, in order (`loads j` says whether image `j`
opens; a failure is logged and skipped). -/
def batchLoadedIndices (loads : Nat → Bool) (n i : Nat) : List Nat :=
  (List.range' i (min (i + BATCH_SIZE) n - i)).filter (fun j => loads j)

/-- The batch start indices `range(0, n, BATCH_SIZE)`. -/
def batchStarts (n : Nat) : List Nat :=
  (List.range ((n + BATCH_SIZE - 1) / BATCH_SIZE)).map (fun m => m * BATCH_SIZE)

/-- `_index_page_image_embeddings`: every point upserted over the whole
run — for each batch, the embeddings of the successfully loaded images
are paired positionally with IDs `i + j` (a batch with no loadable
images is skipped by the `if not batch_images: continue` guard). -/
def allUpsertPoints (loads : Nat → Bool) (paths : List String) : List UpsertPoint :=
  (batchStarts paths.length).flatMap (fun i =>
    if (batchLoadedIndices loads paths.length i).isEmpty then []
    else upsertPoints paths i (batchLoadedIndices loads paths.length i))

/-- When the source indices are exactly the consecutive block starting
at `i + j`, each point's ID equals its source index and its payload is
the path at that ID. -/
theorem upsertPointsAux_range (paths : List String) (i : Nat) :
    ∀ (len j : Nat), ∀ p ∈ upsertPointsAux paths i j (List.range' (i + j) len),
      p.srcIndex = p.id ∧ i + j ≤ p.id ∧ p.id < i + j + len ∧
        p.payloadPath = (paths.get? p.id).getD "" := by
  intro len
  induction len with
  | zero => intro j p hp; simp [upsertPointsAux] at hp
  | succ len ih =>
      intro j p hp
      rw [List.range'_succ] at hp
      simp only [upsertPointsAux, List.mem_cons] at hp
      rcases hp with hp | hp
      · subst hp
        refine ⟨rfl, Nat.le_refl _, ?_, rfl⟩
        show i + j < i + j + (len + 1)
        omega
      · have hrw : i + j + 1 = i + (j + 1) := by omega
        rw [hrw] at hp
        obtain ⟨h1, h2, h3, h4⟩ := ih (j + 1) p hp
        exact ⟨h1, by omega, by omega, h4⟩

/-- C9: when every page image in range loads successfully, each upserted
point's ID equals the index in the sorted path list of the image whose
embedding it stores, and the cached-list lookup at that ID returns
exactly that image's path — so a query's ID-to-path lookup returns the
path of the image whose embedding matched. When an image inside a batch
fails to load (here index 1 of three paths), the correspondence is not
maintained for the remaining images of that batch: the embedding of
image 2 is stored under ID 1 with payload path `b`. -/
theorem point_ids_match_sorted_paths (loads : Nat → Bool) (paths : List String)
    (hall : ∀ j, j < paths.length → loads j = true) :
    (∀ p ∈ allUpsertPoints loads paths,
        p.srcIndex = p.id ∧ p.id < paths.length ∧
          paths.get? p.id = some p.payloadPath) ∧
      allUpsertPoints (fun j => !(j == 1)) ["a", "b", "c"] =
        [⟨0, 0, "a"⟩, ⟨1, 2, "b"⟩] ∧
      (UpsertPoint.mk 1 2 "b").srcIndex ≠ (UpsertPoint.mk 1 2 "b").id := by
  refine ⟨?_, by rfl, by decide⟩
  intro p hp
  unfold allUpsertPoints at hp
  rw [List.mem_flatMap] at hp
  obtain ⟨i, hi, hp⟩ := hp
  by_cases hempty : (batchLoadedIndices loads paths.length i).isEmpty
  · rw [if_pos hempty] at hp
    simp at hp
  · rw [if_neg hempty] at hp
    have hfilter : batchLoadedIndices loads paths.length i =
        List.range' i (min (i + BATCH_SIZE) paths.length - i) := by
      unfold batchLoadedIndices
      refine List.filter_eq_self.mpr ?_
      intro j hj
      have hj2 := List.mem_range'_1.mp hj
      exact hall j (by omega)
    rw [hfilter] at hp
    unfold upsertPoints at hp
    have hp2 := upsertPointsAux_range paths i
      (min (i + BATCH_SIZE) paths.length - i) 0 p (by simpa using hp)
    obtain ⟨h1, h2, h3, h4⟩ := hp2
    have hidlt : p.id < paths.length := by omega
    obtain ⟨v, hv⟩ : ∃ v, paths.get? p.id = some v :=
      ⟨paths.get ⟨p.id, hidlt⟩, List.get?_eq_get hidlt⟩
    refine ⟨h1, hidlt, ?_⟩
    rw [hv, h4, hv]
    rfl

/-- Witness for `point_ids_match_sorted_paths`: with four paths and
every load succeeding, the point of the second batch stores the
embedding of image 3 under ID 3 with payload `d`. -/
theorem point_ids_match_sorted_paths_witness :
    (UpsertPoint.mk 3 3 "d").srcIndex = (UpsertPoint.mk 3 3 "d").id ∧
      (UpsertPoint.mk 3 3 "d").id < (["a", "b", "c", "d"] : List String).length ∧
      (["a", "b", "c", "d"] : List String).get? (UpsertPoint.mk 3 3 "d").id =
        some (UpsertPoint.mk 3 3 "d").payloadPath :=
  (point_ids_match_sorted_paths (fun _ => true) ["a", "b", "c", "d"]
      (fun _ _ => rfl)).1 ⟨3, 3, "d"⟩ (by decide)

/-- The fields `OpenAIProvider.__init__` records. -/
structure OpenAIProviderData where
  apiKey : String
  model : String
  maxTokens : Nat
deriving DecidableEq, Repr

/-- `OpenAIProvider.__init__` with no explicit model argument (as the
factory calls it): read the API key from the environment, raise when it
is unset or empty (`if not self.api_key`), otherwise record the key, the
model from `OPENAI_MODEL` defaulting to `gpt-4o`, and 4096 max tokens.
`env` is `os.environ.get`. -/
def openAIProviderInit (env : String → Option String) : Except String OpenAIProviderData :=
  if (env "OPENAI_API_KEY").getD "" = "" then
    Except.error "OPENAI_API_KEY environment variable is not set"
  else
    Except.ok ⟨(env "OPENAI_API_KEY").getD "", (env "OPENAI_MODEL").getD "gpt-4o", 4096⟩

/-- The provider implementations available to the factory (only one is
implemented). -/
inductive ProviderInstance where
  | openAI : OpenAIProviderData → ProviderInstance
deriving DecidableEq, Repr

/-- `LLMFactory.get_default_provider`: read the selector variable
`DM_THIS_CHAT_LLM` (defaulting to `openai`), lowercase it, and construct
an `OpenAIProvider` whether or not it matches `openai` — the unmatched
branch also falls back to OpenAI. -/
def getDefaultProvider (env : String → Option String) : Except String ProviderInstance :=
  if pyLower ((env "DM_THIS_CHAT_LLM").getD "openai") = "openai" then
    (openAIProviderInit env).map ProviderInstance.openAI
  else
    (openAIProviderInit env).map ProviderInstance.openAI

/-- C10: whenever the API key is set and non-empty,
`LLMFactory.get_default_provider` returns an `OpenAIProvider` instance,
and the outcome is entirely independent of the value (or absence) of the
selector variable `DM_THIS_CHAT_LLM`: an unrecognized selector never
raises and never selects a different provider. -/
theorem default_provider_always_openai (env : String → Option String) (k : String)
    (hkey : env "OPENAI_API_KEY" = some k) (hne : k ≠ "") :
    getDefaultProvider env =
        Except.ok (ProviderInstance.openAI ⟨k, (env "OPENAI_MODEL").getD "gpt-4o", 4096⟩) ∧
      ∀ env₂ : String → Option String,
        (∀ key, key ≠ "DM_THIS_CHAT_LLM" → env key = env₂ key) →
        getDefaultProvider env = getDefaultProvider env₂ := by
  constructor
  · unfold getDefaultProvider openAIProviderInit
    rw [hkey]
    simp [hne, Except.map]
  · intro env₂ hagree
    have e1 : env "OPENAI_API_KEY" = env₂ "OPENAI_API_KEY" :=
      hagree "OPENAI_API_KEY" (by decide)
    have e2 : env "OPENAI_MODEL" = env₂ "OPENAI_MODEL" :=
      hagree "OPENAI_MODEL" (by decide)
    unfold getDefaultProvider openAIProviderInit
    rw [e1, e2]
    simp

/-- A concrete environment: API key set, model unset, selector set to an
unrecognized provider name. -/
def demoEnv : String → Option String := fun key =>
  if key = "OPENAI_API_KEY" then some "sk-test"
  else if key = "DM_THIS_CHAT_LLM" then some "anthropic" else none

/-- Witness for `default_provider_always_openai`: under `demoEnv`, whose
selector is the unrecognized value `anthropic`, the factory still
returns the OpenAI provider with the default model. -/
theorem default_provider_always_openai_witness :
    getDefaultProvider demoEnv =
      Except.ok (ProviderInstance.openAI ⟨"sk-test", "gpt-4o", 4096⟩) :=
  (default_provider_always_openai demoEnv "sk-test" rfl (by decide)).1
